import Mathlib

/-!
Shallow embedding of the harvesting pipeline of `urna_log_crawler.py`
(election voting-machine-model crawler): the persistent aggregation store
and its upsert-merge, the reader projection used by the reporting script,
the byte-range partitioning and chunk reassembly of the multi-connection
downloader, the persisted-file save, and the per-member processing loop of
`process_downloaded_zip` (scratch-directory effects and failure routing).
-/

/-- The composite section identifier built by `process_downloaded_zip`
(line 251): the f-string joining the region code with the three numeric
fields parsed from the inner-archive file name, separated by underscores. -/
def mkSectionId (uf : String) (cd_municipio nr_zona nr_secao : Nat) : String :=
  uf ++ "_" ++ toString cd_municipio ++ "_" ++ toString nr_zona ++ "_" ++ toString nr_secao

/-- One record of the aggregation store: the per-section dict built by
`process_downloaded_zip` (lines 254-274).  Keys `ID_SECAO`, `CD_MUNICIPIO`,
`NR_ZONA`, `NR_SECAO` are always present; `SE_UE2020` may be absent
(`Option Bool`); the family of keys `MODELO_URNA_%sT` (one per round) is
modelled as a function from the round number to an optional model string
(`none` = key absent; `some "None"` = the literal marker string stored on a
parse failure, line 272). -/
@[ext]
structure SectionRecord where
  id_secao : String
  cd_municipio : Nat
  nr_zona : Nat
  nr_secao : Nat
  se_ue2020 : Option Bool
  modelo_urna : Nat → Option String

/-- The in-memory aggregation store: the `data` dict mapping section ids to
records. -/
abbrev Store := String → Option SectionRecord

/-- The empty store returned by `LoadDataDict` when no pickle file exists. -/
def emptyStore : Store := fun _ => none

/-- The fresh record created for an unseen section id, seeded with the
location fields parsed from the file name (lines 255-260). -/
def freshSectionRecord (uf : String) (cd_municipio nr_zona nr_secao : Nat) : SectionRecord :=
  { id_secao := mkSectionId uf cd_municipio nr_zona nr_secao
    cd_municipio := cd_municipio
    nr_zona := nr_zona
    nr_secao := nr_secao
    se_ue2020 := none
    modelo_urna := fun _ => none }

/-- Lines 265-268: `if log_modelo_urna == 'UE2020': section_data[SE_UE2020] = True
elif log_modelo_urna: section_data[SE_UE2020] = False` — the stored
classification field, overwritten by every upsert whose parse succeeded with
a non-empty model string. -/
def classifySeUe2020 (r : SectionRecord) (m : String) : SectionRecord :=
  if m = "UE2020" then { r with se_ue2020 := some true }
  else if m ≠ "" then { r with se_ue2020 := some false }
  else r

/-- Line 269 / 272: `section_data[MODELO_URNA_TEMPLATE % turno] = v` — store
the model string under the round's key. -/
def setModeloUrna (r : SectionRecord) (turno : Nat) (v : String) : SectionRecord :=
  { r with modelo_urna := fun t => if t = turno then some v else r.modelo_urna t }

/-- Lines 262-272: on a successful parse (`parsed = some m`) the
classification field and the round's model are written; on a parse failure
(`parsed = none`, the `except` branch) the round's model is set to the
literal string marker `"None"` and the classification field is untouched. -/
def upsertSection (r : SectionRecord) (turno : Nat) (parsed : Option String) : SectionRecord :=
  match parsed with
  | some m => setModeloUrna (classifySeUe2020 r m) turno m
  | none => setModeloUrna r turno "None"

/-- Lines 254-274: get-or-create the record for `section_id`, merge the
round's parse result into it, and write it back under `section_id`. -/
def upsert (data : Store) (uf : String) (cd_municipio nr_zona nr_secao : Nat)
    (turno : Nat) (parsed : Option String) : Store :=
  let section_id := mkSectionId uf cd_municipio nr_zona nr_secao
  let section_data := (data section_id).getD (freshSectionRecord uf cd_municipio nr_zona nr_secao)
  let section_data2 := upsertSection section_data turno parsed
  fun k => if k = section_id then some section_data2 else data k

/-- The consolidated model column of `LoadModeloUrnasDataFrame` (line 123):
`df.MODELO_URNA_2T.combine_first(df.MODELO_URNA_1T)` — the round-2 value
when present (non-null), otherwise the round-1 value. -/
def readerConsolidatedModelo (r : SectionRecord) : Option String :=
  match r.modelo_urna 2 with
  | some m => some m
  | none => r.modelo_urna 1

/-- The recomputed flag column of `LoadModeloUrnasDataFrame` (line 124):
`[i == 'UE2020' for i in df.MODELO_URNA_2T]` — an absent round-2 value is
NaN in the frame, and `NaN == 'UE2020'` is `False`. -/
def readerSeUe2020 (r : SectionRecord) : Bool :=
  match r.modelo_urna 2 with
  | some m => m = "UE2020"
  | none => false

/-- A row of the reader projection after line 125 drops `ID_SECAO`,
`NR_ZONA`, `NR_SECAO`: the columns kept are the municipality code, the two
per-round model columns, the consolidated model, and the recomputed flag. -/
structure ReaderRow where
  cd_municipio : Nat
  modelo_urna_1t : Option String
  modelo_urna_2t : Option String
  modelo_urna : Option String
  se_ue2020 : Bool

/-- The reader projection of one stored record (`LoadModeloUrnasDataFrame`,
lines 111-127). -/
def readerRow (r : SectionRecord) : ReaderRow :=
  { cd_municipio := r.cd_municipio
    modelo_urna_1t := r.modelo_urna 1
    modelo_urna_2t := r.modelo_urna 2
    modelo_urna := readerConsolidatedModelo r
    se_ue2020 := readerSeUe2020 r }

/-- Line 178: `chunk_size = total_size // num_connections` (Python floor
division on non-negative integers is Nat division). -/
def chunk_size (total_size num_connections : Nat) : Nat :=
  total_size / num_connections

/-- Line 183: `start = i * chunk_size`.  Stated over `Int` because the
`end` bound below can be `-1` in Python. -/
def chunkStart (total_size num_connections i : Nat) : Int :=
  ((i * chunk_size total_size num_connections : Nat) : Int)

/-- Lines 184-186: `end = start + chunk_size - 1`, overridden to
`total_size - 1` for the last chunk (`i == num_connections - 1`). -/
def chunkEnd (total_size num_connections i : Nat) : Int :=
  if i = num_connections - 1 then (total_size : Int) - 1
  else chunkStart total_size num_connections i + (chunk_size total_size num_connections : Int) - 1

/-- The outcome of one `download_chunk` call (lines 130-151) for a chunk
whose remote byte range holds `content`.  The worker catches every request
exception and merely prints it — its return type carries no error signal,
only the resulting state of the part file on disk:
`headerError` = the GET or `raise_for_status` raised before the part file
was opened (no part file); `midStream k` = the body iteration raised after
`k` bytes were written (truncated part file); `ok` = the full range was
written. -/
inductive ChunkFetchOutcome where
  | headerError : ChunkFetchOutcome
  | midStream : Nat → ChunkFetchOutcome
  | ok : ChunkFetchOutcome

/-- The part file left on disk by `download_chunk` (lines 144-151):
`none` = the part file was never created. -/
def download_chunk (content : List Nat) : ChunkFetchOutcome → Option (List Nat)
  | ChunkFetchOutcome.headerError => none
  | ChunkFetchOutcome.midStream k => some (content.take k)
  | ChunkFetchOutcome.ok => some content

/-- The part files on disk after all chunk threads join, given the true
remote content of each chunk's byte range and the outcome of its fetch. -/
def downloadParts (contents : List (List Nat)) (outcomes : List ChunkFetchOutcome) :
    List (Option (List Nat)) :=
  List.zipWith download_chunk contents outcomes

/-- The reassembly loop of `download_file_with_multiple_connections`
(lines 198-210), after the destination file has been opened: walks the part
files in sequence order carrying the bytes written to the destination so
far.  An existing part file is appended to the destination and removed
(`os.remove`); a missing part file makes the function return `False` at
once, leaving the destination as written so far and the remaining part
files (the missing one and everything after it) untouched on disk.
Result: (returned success flag, destination file content, part files left
on disk). -/
def combineLoop : List (Option (List Nat)) → List Nat →
    Bool × List Nat × List (Option (List Nat))
  | [], dest => (true, dest, [])
  | none :: rest, dest => (false, dest, none :: rest)
  | some c :: rest, dest =>
      let r := combineLoop rest (dest ++ c)
      (r.1, r.2.1, none :: r.2.2)

/-- Lines 198-210: `open(filename, 'wb')` creates (or truncates) the
destination file before any part file is checked, so the loop starts from
an empty destination. -/
def combineChunks (parts : List (Option (List Nat))) :
    Bool × List Nat × List (Option (List Nat)) :=
  combineLoop parts []

/-- The destination file on disk after `download_file_with_multiple_connections`
returns from the reassembly phase.  It is `some` unconditionally: line 198
opens the destination with mode `'wb'` before any existence check, so the
file exists (with whatever bytes were concatenated before a missing part
aborted the loop) on the failure path as well as on success. -/
def downloadDestFile (parts : List (Option (List Nat))) : Option (List Nat) :=
  some (combineChunks parts).2.1

/-- One step of `DumpDataDict` (lines 100-108) as it affects the persisted
file: `openTrunc` is `open(MODELO_DE_URNA_PICKLE, 'wb')`, which truncates
the file in place; `writeAll bs` is `pickle.dump(data, f)`, which appends
the serialized mapping `bs` into the (now empty) file. -/
inductive SaveOp where
  | openTrunc : SaveOp
  | writeAll : List Nat → SaveOp

/-- The operation sequence `DumpDataDict` performs on the persisted file,
with the pickle serialization of the mapping abstracted as the byte list
`new`.  There is no temporary path and no rename: the destination itself is
truncated and rewritten. -/
def dumpDataDictOps (new : List Nat) : List SaveOp :=
  [SaveOp.openTrunc, SaveOp.writeAll new]

/-- Effect of one save operation on the persisted file's content. -/
def applySaveOp (s : List Nat) : SaveOp → List Nat
  | SaveOp.openTrunc => []
  | SaveOp.writeAll bs => s ++ bs

/-- The sequence of file contents a concurrent reader of the persisted file
can observe during a save: the content before the save, then the content
after each operation. -/
def observableStates (old : List Nat) (ops : List SaveOp) : List (List Nat) :=
  ops.scanl applySaveOp old

/-- One member of the outer zip archive as seen by `process_downloaded_zip`
(lines 230-283), with the behaviour of the external archive/regex/parse
libraries on this member recorded as data:
`name` — the member's file name inside the outer zip (line 234 keeps only
names ending in `logjez`);
`logjezPath` — the scratch path the first-level extraction writes (238);
`innerOk` — whether `py7zr.SevenZipFile` opens the inner container (242);
`getNames` — the entry names `getnames()` reports (243);
`written` — the entries `extractall` actually wrote before returning or
raising (244), a subset of `getNames`;
`extractOk` — whether `extractall` completed without raising;
`fnMatch` — the `(cd_municipio, nr_zona, nr_secao)` groups of the filename
regex, `none` when the name does not match (247-249);
`parsed` — the model string `GetModeloUrnaFromLogFile` returns, `none` when
it raises (263-272). -/
structure Member where
  name : String
  logjezPath : String
  innerOk : Bool
  getNames : List String
  written : List String
  extractOk : Bool
  fnMatch : Option (Nat × Nat × Nat)
  parsed : Option String

/-- Line 234: `zip_info.filename.endswith('logjez')`, embedded as a
character-list suffix test (a pattern longer than the name never matches). -/
def strEndsWith (s pat : String) : Bool :=
  s.data.drop (s.data.length - pat.data.length) == pat.data

/-- A file appearing in the scratch directory: creating a file that already
exists overwrites it (the name set is unchanged). -/
def insertName (scratch : List String) (n : String) : List String :=
  if n ∈ scratch then scratch else scratch ++ [n]

/-- `os.remove` of a name, guarded by `os.path.exists`: removing an absent
name is a no-op. -/
def removeName (scratch : List String) (n : String) : List String :=
  scratch.filter (fun x => x ≠ n)

/-- The `finally` block (lines 276-283): remove the inner-archive file if
it exists, then remove every name `getnames()` reported that exists. -/
def cleanupMember (scratch : List String) (m : Member) : List String :=
  List.foldl removeName (removeName scratch m.logjezPath) m.getNames

/-- One iteration of the member loop of `process_downloaded_zip`
(lines 232-283), acting on the store and the scratch-directory name set.
The returned flag is `true` when the loop continues with the next member
and `false` when an exception escapes the member (no `except` guards the
inner `try`, so a `py7zr` open failure or an `extractall` failure
propagates past the loop to the archive-level handler at lines 285-288
after the `finally` cleanup runs).  In the `innerOk = false` case the
`finally` removes the inner-archive file and then iterates a
`log_files_inside` list that is undefined (first member: `NameError`) or
stale from the previous member (whose files were already removed), so
nothing further of this member is removed. -/
def memberStep (uf : String) (turno : Nat) (st : Store × List String) (m : Member) :
    (Store × List String) × Bool :=
  let data := st.1
  let scratch := st.2
  if ¬ (strEndsWith m.name "logjez") then ((data, scratch), true)
  else
    let scratch1 := insertName scratch m.logjezPath
    if ¬ m.innerOk then ((data, removeName scratch1 m.logjezPath), false)
    else
      let scratch2 := m.written.foldl insertName scratch1
      if ¬ m.extractOk then ((data, cleanupMember scratch2 m), false)
      else
        match m.fnMatch with
        | none => ((data, cleanupMember scratch2 m), true)
        | some (cd, nz, ns) =>
            ((upsert data uf cd nz ns turno m.parsed, cleanupMember scratch2 m), true)

/-- The member loop of `process_downloaded_zip` over the outer archive's
member list: runs `memberStep` on each member in order, stopping early when
a member's exception escapes the loop (the archive-level `except Exception`
then swallows it and the function returns with the remaining members
unprocessed). -/
def processZip (uf : String) (turno : Nat) (data : Store) (scratch : List String) :
    List Member → Store × List String
  | [] => (data, scratch)
  | m :: rest =>
      let r := memberStep uf turno (data, scratch) m
      if r.2 then processZip uf turno r.1.1 r.1.2 rest else r.1

theorem setModeloUrna_se (r : SectionRecord) (t : Nat) (v : String) :
    (setModeloUrna r t v).se_ue2020 = r.se_ue2020 := rfl

theorem classify_modelo (r : SectionRecord) (m : String) :
    (classifySeUe2020 r m).modelo_urna = r.modelo_urna := by
  unfold classifySeUe2020; split_ifs <;> rfl

theorem setModeloUrna_setModeloUrna (r : SectionRecord) (t : Nat) (v w : String) :
    setModeloUrna (setModeloUrna r t v) t w = setModeloUrna r t w := by
  unfold setModeloUrna
  ext u <;> try rfl
  simp only []
  by_cases h : u = t <;> simp [h]

theorem classify_classify (r : SectionRecord) (m : String) :
    classifySeUe2020 (classifySeUe2020 r m) m = classifySeUe2020 r m := by
  unfold classifySeUe2020; split_ifs <;> rfl

theorem classify_setModeloUrna (r : SectionRecord) (m : String) (t : Nat) (v : String) :
    classifySeUe2020 (setModeloUrna r t v) m = setModeloUrna (classifySeUe2020 r m) t v := by
  unfold classifySeUe2020 setModeloUrna; split_ifs <;> rfl

theorem upsertSection_idem (r : SectionRecord) (turno : Nat) (parsed : Option String) :
    upsertSection (upsertSection r turno parsed) turno parsed = upsertSection r turno parsed := by
  cases parsed with
  | none => exact setModeloUrna_setModeloUrna r turno "None" "None"
  | some m =>
      show setModeloUrna (classifySeUe2020 (setModeloUrna (classifySeUe2020 r m) turno m) m)
          turno m = setModeloUrna (classifySeUe2020 r m) turno m
      rw [classify_setModeloUrna, classify_classify, setModeloUrna_setModeloUrna]

theorem setModeloUrna_swap (r : SectionRecord) (t1 t2 : Nat) (h : t1 ≠ t2) (v w : String) :
    setModeloUrna (setModeloUrna r t1 v) t2 w = setModeloUrna (setModeloUrna r t2 w) t1 v := by
  unfold setModeloUrna
  ext u <;> try rfl
  simp only []
  by_cases h1 : u = t1 <;> by_cases h2 : u = t2 <;> simp_all

theorem classify_swap (r : SectionRecord) (m1 m2 : String)
    (hcls : m1 = "UE2020" ↔ m2 = "UE2020") (h1 : m1 ≠ "") (h2 : m2 ≠ "") :
    classifySeUe2020 (classifySeUe2020 r m1) m2 = classifySeUe2020 (classifySeUe2020 r m2) m1 := by
  unfold classifySeUe2020
  by_cases hu : m1 = "UE2020"
  · simp [hu, hcls.mp hu]
  · have hu2 : ¬ m2 = "UE2020" := fun h => hu (hcls.mpr h)
    simp [hu, hu2, h1, h2]

theorem upsertSection_comm (r : SectionRecord) (m1 m2 : String)
    (hcls : m1 = "UE2020" ↔ m2 = "UE2020") (h1 : m1 ≠ "") (h2 : m2 ≠ "") :
    upsertSection (upsertSection r 1 (some m1)) 2 (some m2)
      = upsertSection (upsertSection r 2 (some m2)) 1 (some m1) := by
  show setModeloUrna (classifySeUe2020 (setModeloUrna (classifySeUe2020 r m1) 1 m1) m2) 2 m2
      = setModeloUrna (classifySeUe2020 (setModeloUrna (classifySeUe2020 r m2) 2 m2) m1) 1 m1
  rw [classify_setModeloUrna, classify_setModeloUrna, classify_swap r m1 m2 hcls h1 h2,
    setModeloUrna_swap _ 1 2 (by omega)]

theorem upsert_lookup_self (data : Store) (uf : String) (cd_municipio nr_zona nr_secao : Nat)
    (turno : Nat) (parsed : Option String) :
    upsert data uf cd_municipio nr_zona nr_secao turno parsed
        (mkSectionId uf cd_municipio nr_zona nr_secao)
      = some (upsertSection
          ((data (mkSectionId uf cd_municipio nr_zona nr_secao)).getD
            (freshSectionRecord uf cd_municipio nr_zona nr_secao)) turno parsed) := by
  simp [upsert]

theorem upsert_lookup_other (data : Store) (uf : String) (cd_municipio nr_zona nr_secao : Nat)
    (turno : Nat) (parsed : Option String) (k : String)
    (hk : k ≠ mkSectionId uf cd_municipio nr_zona nr_secao) :
    upsert data uf cd_municipio nr_zona nr_secao turno parsed k = data k := by
  simp [upsert, hk]

/-- C1: upserting the same `(sectionId, round, model)` twice equals upserting
it once, and upserting a round-1 model and a round-2 model for the same
sectionId commutes provided the two model strings are non-empty and receive
the same modern-machine classification (both equal `"UE2020"` or neither
does).  (Full order-independence fails on the stored `SE_UE2020` field; see
the counterexample.) -/
theorem upsert_idempotent_and_round_comm :
    (∀ (data : Store) (uf : String) (cd_municipio nr_zona nr_secao turno : Nat)
        (parsed : Option String),
        upsert (upsert data uf cd_municipio nr_zona nr_secao turno parsed)
            uf cd_municipio nr_zona nr_secao turno parsed
          = upsert data uf cd_municipio nr_zona nr_secao turno parsed) ∧
    (∀ (data : Store) (uf : String) (cd_municipio nr_zona nr_secao : Nat) (m1 m2 : String),
        (m1 = "UE2020" ↔ m2 = "UE2020") → m1 ≠ "" → m2 ≠ "" →
        upsert (upsert data uf cd_municipio nr_zona nr_secao 1 (some m1))
            uf cd_municipio nr_zona nr_secao 2 (some m2)
          = upsert (upsert data uf cd_municipio nr_zona nr_secao 2 (some m2))
              uf cd_municipio nr_zona nr_secao 1 (some m1)) := by
  constructor
  · intro data uf cd_municipio nr_zona nr_secao turno parsed
    funext k
    by_cases hk : k = mkSectionId uf cd_municipio nr_zona nr_secao
    · subst hk
      simp only [upsert_lookup_self, Option.getD_some, upsertSection_idem]
    · simp only [upsert_lookup_other _ _ _ _ _ _ _ _ hk]
  · intro data uf cd_municipio nr_zona nr_secao m1 m2 hcls h1 h2
    funext k
    by_cases hk : k = mkSectionId uf cd_municipio nr_zona nr_secao
    · subst hk
      simp only [upsert_lookup_self, Option.getD_some]
      exact congrArg some (upsertSection_comm _ _ _ hcls h1 h2)
    · simp only [upsert_lookup_other _ _ _ _ _ _ _ _ hk]

/-- Witness for C1: a concrete instance of the commutativity part, with the
classification hypothesis discharged at models `"UE2020"`, `"UE2020"`. -/
theorem upsert_idempotent_and_round_comm_witness :
    upsert (upsert emptyStore "AC" 1 1 1 1 (some "UE2020")) "AC" 1 1 1 2 (some "UE2020")
      = upsert (upsert emptyStore "AC" 1 1 1 2 (some "UE2020")) "AC" 1 1 1 1 (some "UE2020") :=
  upsert_idempotent_and_round_comm.2 emptyStore "AC" 1 1 1 "UE2020" "UE2020"
    (by decide) (by decide) (by decide)

/-- Counterexample to C1 as stated: for sectionId `AC_1_1_1`, upserting
round-1 model `"UE2020"` then round-2 model `"UE2005"` leaves the stored
`SE_UE2020` field `False`, while the opposite order leaves it `True` (the
field always reflects the most recent upsert, regardless of round), so the
two final records differ. -/
theorem upsert_round_order_dependent :
    ((upsert (upsert emptyStore "AC" 1 1 1 1 (some "UE2020")) "AC" 1 1 1 2 (some "UE2005"))
        "AC_1_1_1").map (fun r => r.se_ue2020) = some (some false) ∧
    ((upsert (upsert emptyStore "AC" 1 1 1 2 (some "UE2005")) "AC" 1 1 1 1 (some "UE2020"))
        "AC_1_1_1").map (fun r => r.se_ue2020) = some (some true) ∧
    upsert (upsert emptyStore "AC" 1 1 1 1 (some "UE2020")) "AC" 1 1 1 2 (some "UE2005")
      ≠ upsert (upsert emptyStore "AC" 1 1 1 2 (some "UE2005")) "AC" 1 1 1 1 (some "UE2020") := by
  refine ⟨by decide, by decide, fun h => ?_⟩
  have h2 := congrArg (fun s : Store => (s "AC_1_1_1").map (fun r => r.se_ue2020)) h
  revert h2
  decide

theorem classify_id (r : SectionRecord) (m : String) :
    (classifySeUe2020 r m).id_secao = r.id_secao := by
  unfold classifySeUe2020; split_ifs <;> rfl

theorem classify_cd (r : SectionRecord) (m : String) :
    (classifySeUe2020 r m).cd_municipio = r.cd_municipio := by
  unfold classifySeUe2020; split_ifs <;> rfl

theorem classify_nz (r : SectionRecord) (m : String) :
    (classifySeUe2020 r m).nr_zona = r.nr_zona := by
  unfold classifySeUe2020; split_ifs <;> rfl

theorem classify_ns (r : SectionRecord) (m : String) :
    (classifySeUe2020 r m).nr_secao = r.nr_secao := by
  unfold classifySeUe2020; split_ifs <;> rfl

theorem upsertSection_id (r : SectionRecord) (turno : Nat) (p : Option String) :
    (upsertSection r turno p).id_secao = r.id_secao := by
  cases p with
  | none => rfl
  | some m => exact classify_id r m

theorem upsertSection_cd (r : SectionRecord) (turno : Nat) (p : Option String) :
    (upsertSection r turno p).cd_municipio = r.cd_municipio := by
  cases p with
  | none => rfl
  | some m => exact classify_cd r m

theorem upsertSection_nz (r : SectionRecord) (turno : Nat) (p : Option String) :
    (upsertSection r turno p).nr_zona = r.nr_zona := by
  cases p with
  | none => rfl
  | some m => exact classify_nz r m

theorem upsertSection_ns (r : SectionRecord) (turno : Nat) (p : Option String) :
    (upsertSection r turno p).nr_secao = r.nr_secao := by
  cases p with
  | none => rfl
  | some m => exact classify_ns r m

theorem upsertSection_modelo_other (r : SectionRecord) (turno : Nat) (p : Option String)
    (t : Nat) (ht : t ≠ turno) :
    (upsertSection r turno p).modelo_urna t = r.modelo_urna t := by
  cases p with
  | none => simp [upsertSection, setModeloUrna, ht]
  | some m => simp [upsertSection, setModeloUrna, classify_modelo, ht]

theorem upsertSection_modelo_self (r : SectionRecord) (turno : Nat) (p : Option String) :
    (upsertSection r turno p).modelo_urna turno = some (p.getD "None") := by
  cases p with
  | none => simp [upsertSection, setModeloUrna]
  | some m => simp [upsertSection, setModeloUrna]

theorem upsertSection_se_none (r : SectionRecord) (turno : Nat) :
    (upsertSection r turno none).se_ue2020 = r.se_ue2020 := rfl

theorem upsertSection_se_some (r : SectionRecord) (turno : Nat) (m : String) (hm : m ≠ "") :
    (upsertSection r turno (some m)).se_ue2020 = some (decide (m = "UE2020")) := by
  by_cases h : m = "UE2020" <;>
    simp [upsertSection, setModeloUrna, classifySeUe2020, h, hm]

/-- C2 (amended): the reader projection `LoadModeloUrnasDataFrame` computes
`SE_UE2020` as true exactly when the round-2 model equals `"UE2020"`; when
the round-2 model is absent the flag is `false` regardless of the round-1
model (there is no round-1 fallback for the flag); the consolidated
`MODELO_URNA` value does prefer round-2 and fall back to round-1. -/
theorem reader_flag_and_consolidation :
    ∀ r : SectionRecord,
      (readerSeUe2020 r = true ↔ r.modelo_urna 2 = some "UE2020") ∧
      ((readerRow r).se_ue2020 = readerSeUe2020 r ∧
        (readerRow r).modelo_urna = readerConsolidatedModelo r) ∧
      (r.modelo_urna 2 = none →
        readerSeUe2020 r = false ∧ readerConsolidatedModelo r = r.modelo_urna 1) ∧
      (∀ m, r.modelo_urna 2 = some m → readerConsolidatedModelo r = some m) := by
  intro r
  cases h : r.modelo_urna 2 with
  | none => simp [readerSeUe2020, readerConsolidatedModelo, readerRow, h]
  | some m => simp [readerSeUe2020, readerConsolidatedModelo, readerRow, h]

/-- Witness for C2: the fresh record (no round-2 model) evaluates to flag
`false` with consolidation falling back to round 1. -/
theorem reader_flag_and_consolidation_witness :
    readerSeUe2020 (freshSectionRecord "AC" 1 1 1) = false ∧
    readerConsolidatedModelo (freshSectionRecord "AC" 1 1 1)
      = (freshSectionRecord "AC" 1 1 1).modelo_urna 1 :=
  (reader_flag_and_consolidation (freshSectionRecord "AC" 1 1 1)).2.2.1 rfl

/-- Counterexample to C2 as stated: a record whose round-1 model is
`"UE2020"` and whose round-2 model is absent gets reader flag `false` —
the flag does not fall back to round-1's classification (which is modern,
so the claimed fallback would give `true`). -/
theorem reader_flag_no_round1_fallback :
    ((upsert emptyStore "AC" 1 1 1 1 (some "UE2020")) "AC_1_1_1").map readerSeUe2020
        = some false ∧
    ((upsert emptyStore "AC" 1 1 1 1 (some "UE2020")) "AC_1_1_1").map
        (fun r => r.modelo_urna 1) = some (some "UE2020") ∧
    ((upsert emptyStore "AC" 1 1 1 1 (some "UE2020")) "AC_1_1_1").map
        (fun r => r.modelo_urna 2) = some none := by
  exact ⟨by decide, by decide, by decide⟩

/-- C9 (amended): upserting into a store that already holds a record for the
sectionId leaves the identifier, the location fields and every other
round's model unchanged, and overwrites the given round's model — but it
also overwrites the stored `SE_UE2020` classification field whenever the
parse succeeded with a non-empty model (only a parse failure leaves it
untouched). -/
theorem upsert_frame :
    ∀ (data : Store) (uf : String) (cd_municipio nr_zona nr_secao turno : Nat)
      (parsed : Option String) (r0 : SectionRecord),
      data (mkSectionId uf cd_municipio nr_zona nr_secao) = some r0 →
      ∃ r1, upsert data uf cd_municipio nr_zona nr_secao turno parsed
              (mkSectionId uf cd_municipio nr_zona nr_secao) = some r1
        ∧ r1.id_secao = r0.id_secao
        ∧ r1.cd_municipio = r0.cd_municipio
        ∧ r1.nr_zona = r0.nr_zona
        ∧ r1.nr_secao = r0.nr_secao
        ∧ (∀ t, t ≠ turno → r1.modelo_urna t = r0.modelo_urna t)
        ∧ r1.modelo_urna turno = some (parsed.getD "None")
        ∧ (parsed = none → r1.se_ue2020 = r0.se_ue2020)
        ∧ (∀ m, parsed = some m → m ≠ "" →
            r1.se_ue2020 = some (decide (m = "UE2020"))) := by
  intro data uf cd_municipio nr_zona nr_secao turno parsed r0 h
  refine ⟨upsertSection r0 turno parsed, ?_, upsertSection_id r0 turno parsed,
    upsertSection_cd r0 turno parsed, upsertSection_nz r0 turno parsed,
    upsertSection_ns r0 turno parsed,
    fun t ht => upsertSection_modelo_other r0 turno parsed t ht,
    upsertSection_modelo_self r0 turno parsed, ?_, ?_⟩
  · rw [upsert_lookup_self, h, Option.getD_some]
  · intro hp; subst hp; exact upsertSection_se_none r0 turno
  · intro m hp hm; subst hp; exact upsertSection_se_some r0 turno m hm

/-- Witness for C9 at a concrete store holding a fresh record under every
key. -/
theorem upsert_frame_witness :
    ∃ r1, upsert (fun _ => some (freshSectionRecord "AC" 1 1 1)) "AC" 1 1 1 1 (some "UE2005")
            (mkSectionId "AC" 1 1 1) = some r1
      ∧ r1.id_secao = (freshSectionRecord "AC" 1 1 1).id_secao
      ∧ r1.cd_municipio = (freshSectionRecord "AC" 1 1 1).cd_municipio
      ∧ r1.nr_zona = (freshSectionRecord "AC" 1 1 1).nr_zona
      ∧ r1.nr_secao = (freshSectionRecord "AC" 1 1 1).nr_secao
      ∧ (∀ t, t ≠ 1 → r1.modelo_urna t = (freshSectionRecord "AC" 1 1 1).modelo_urna t)
      ∧ r1.modelo_urna 1 = some ((some "UE2005").getD "None")
      ∧ (some "UE2005" = (none : Option String) →
          r1.se_ue2020 = (freshSectionRecord "AC" 1 1 1).se_ue2020)
      ∧ (∀ m, some "UE2005" = some m → m ≠ "" →
          r1.se_ue2020 = some (decide (m = "UE2020"))) :=
  upsert_frame (fun _ => some (freshSectionRecord "AC" 1 1 1)) "AC" 1 1 1 1 (some "UE2005")
    (freshSectionRecord "AC" 1 1 1) rfl

/-- Counterexample to C9 as stated: the store holds a record for
`AC_1_1_1` with stored flag `True` (from a round-2 `"UE2020"` upsert); a
round-1 upsert with model `"UE2005"` then flips the record's stored
`SE_UE2020` field to `False` — a field other than the given round's model
is overwritten. -/
theorem upsert_overwrites_stored_flag :
    ((upsert emptyStore "AC" 1 1 1 2 (some "UE2020")) "AC_1_1_1").map
        (fun r => r.se_ue2020) = some (some true) ∧
    ((upsert (upsert emptyStore "AC" 1 1 1 2 (some "UE2020")) "AC" 1 1 1 1 (some "UE2005"))
        "AC_1_1_1").map (fun r => r.se_ue2020) = some (some false) := by
  exact ⟨by decide, by decide⟩

theorem mul_chunk_size_le (total_size num_connections : Nat) :
    num_connections * chunk_size total_size num_connections ≤ total_size := by
  have h := Nat.div_mul_le_self total_size num_connections
  rw [Nat.mul_comm]
  exact h

theorem chunkStart_nonneg (total_size num_connections i : Nat) :
    (0 : Int) ≤ chunkStart total_size num_connections i := by
  simp only [chunkStart]
  exact Int.ofNat_nonneg _

theorem chunkEnd_lt_chunkStart (total_size num_connections i j : Nat)
    (hij : i < j) (hj : j < num_connections) :
    chunkEnd total_size num_connections i < chunkStart total_size num_connections j := by
  have hne : i ≠ num_connections - 1 := by omega
  have h1 : i * chunk_size total_size num_connections + chunk_size total_size num_connections
      ≤ j * chunk_size total_size num_connections := by
    have h2 := Nat.mul_le_mul_right (chunk_size total_size num_connections)
      (show i + 1 ≤ j by omega)
    rwa [Nat.succ_mul] at h2
  have h1i : ((i * chunk_size total_size num_connections
        + chunk_size total_size num_connections : Nat) : Int)
      ≤ ((j * chunk_size total_size num_connections : Nat) : Int) := by exact_mod_cast h1
  simp only [chunkEnd, if_neg hne, chunkStart]
  push_cast at h1i ⊢
  linarith

theorem chunkEnd_le_last (total_size num_connections i : Nat)
    (hi : i < num_connections) :
    chunkEnd total_size num_connections i ≤ (total_size : Int) - 1 := by
  by_cases hne : i = num_connections - 1
  · simp [chunkEnd, hne]
  · have h1 : i * chunk_size total_size num_connections
        + chunk_size total_size num_connections
        ≤ num_connections * chunk_size total_size num_connections := by
      have h2 := Nat.mul_le_mul_right (chunk_size total_size num_connections)
        (show i + 1 ≤ num_connections by omega)
      rwa [Nat.succ_mul] at h2
    have h3 := mul_chunk_size_le total_size num_connections
    have h4 : ((i * chunk_size total_size num_connections
          + chunk_size total_size num_connections : Nat) : Int)
        ≤ (total_size : Int) := by exact_mod_cast le_trans h1 h3
    simp only [chunkEnd, if_neg hne, chunkStart]
    push_cast at h4 ⊢
    linarith

/-- C4: for every total size `T ≥ 1` and connection count `N ≥ 1`, the `N`
computed byte ranges are contiguous (`start (i+1) = end i + 1`), the last
range's upper bound is exactly `T - 1`, the ranges are pairwise
non-overlapping, and their union is exactly `[0, T)`. -/
theorem chunk_ranges_partition :
    ∀ (total_size num_connections : Nat), 1 ≤ total_size → 1 ≤ num_connections →
      ((∀ i, i + 1 < num_connections →
          chunkStart total_size num_connections (i + 1)
            = chunkEnd total_size num_connections i + 1) ∧
        chunkEnd total_size num_connections (num_connections - 1) = (total_size : Int) - 1 ∧
        (∀ i j, i < num_connections → j < num_connections → i ≠ j →
          ∀ b : Int, chunkStart total_size num_connections i ≤ b →
            b ≤ chunkEnd total_size num_connections i →
            ¬ (chunkStart total_size num_connections j ≤ b ∧
                b ≤ chunkEnd total_size num_connections j)) ∧
        (∀ b : Int,
          (∃ i, i < num_connections ∧ chunkStart total_size num_connections i ≤ b ∧
              b ≤ chunkEnd total_size num_connections i)
            ↔ (0 ≤ b ∧ b < (total_size : Int)))) := by
  intro total_size num_connections hT hN
  refine ⟨?_, ?_, ?_, ?_⟩
  · intro i hi
    have hne : i ≠ num_connections - 1 := by omega
    simp only [chunkEnd, if_neg hne, chunkStart, chunk_size]
    push_cast [Nat.succ_mul]
    ring
  · simp [chunkEnd]
  · intro i j hi hj hij b hbi1 hbi2 hbj
    rcases Nat.lt_or_ge i j with hlt | hge
    · have := chunkEnd_lt_chunkStart total_size num_connections i j hlt hj
      linarith [hbj.1]
    · have hlt : j < i := by omega
      have := chunkEnd_lt_chunkStart total_size num_connections j i hlt hi
      linarith [hbj.2]
  · intro b
    constructor
    · rintro ⟨i, hi, hb1, hb2⟩
      refine ⟨le_trans (chunkStart_nonneg total_size num_connections i) hb1, ?_⟩
      have := chunkEnd_le_last total_size num_connections i hi
      linarith
    · rintro ⟨hb0, hbT⟩
      obtain ⟨bn, rfl⟩ := Int.eq_ofNat_of_zero_le hb0
      have hbnT : bn < total_size := by exact_mod_cast hbT
      by_cases hc : chunk_size total_size num_connections = 0
      · refine ⟨num_connections - 1, by omega, ?_, ?_⟩
        · simp [chunkStart, hc]
        · simp only [chunkEnd, if_pos rfl]
          push_cast
          omega
      · have hcpos : 0 < chunk_size total_size num_connections := Nat.pos_of_ne_zero hc
        by_cases hb : (num_connections - 1) * chunk_size total_size num_connections ≤ bn
        · refine ⟨num_connections - 1, by omega, ?_, ?_⟩
          · simp only [chunkStart]
            exact_mod_cast hb
          · simp only [chunkEnd, if_pos rfl]
            push_cast
            omega
        · have hblt : bn < (num_connections - 1) * chunk_size total_size num_connections := by
            omega
          refine ⟨bn / chunk_size total_size num_connections, ?_, ?_, ?_⟩
          · have := (Nat.div_lt_iff_lt_mul hcpos).mpr hblt
            omega
          · simp only [chunkStart]
            exact_mod_cast Nat.div_mul_le_self bn (chunk_size total_size num_connections)
          · have hne : bn / chunk_size total_size num_connections ≠ num_connections - 1 := by
              have := (Nat.div_lt_iff_lt_mul hcpos).mpr hblt
              omega
            have hmod := Nat.div_add_mod bn (chunk_size total_size num_connections)
            have hr := Nat.mod_lt bn hcpos
            simp only [chunkEnd, if_neg hne, chunkStart]
            have hmodi : (chunk_size total_size num_connections : Int)
                  * ((bn / chunk_size total_size num_connections : Nat) : Int)
                  + ((bn % chunk_size total_size num_connections : Nat) : Int)
                = (bn : Int) := by exact_mod_cast hmod
            have hri : ((bn % chunk_size total_size num_connections : Nat) : Int)
                < ((chunk_size total_size num_connections : Nat) : Int) := by exact_mod_cast hr
            push_cast at hmodi hri ⊢
            nlinarith [hmodi, hri]

/-- Witness for C4 at total size 10 and 3 connections. -/
theorem chunk_ranges_partition_witness :
    ((∀ i, i + 1 < 3 → chunkStart 10 3 (i + 1) = chunkEnd 10 3 i + 1) ∧
      chunkEnd 10 3 (3 - 1) = (10 : Int) - 1 ∧
      (∀ i j, i < 3 → j < 3 → i ≠ j →
        ∀ b : Int, chunkStart 10 3 i ≤ b → b ≤ chunkEnd 10 3 i →
          ¬ (chunkStart 10 3 j ≤ b ∧ b ≤ chunkEnd 10 3 j)) ∧
      (∀ b : Int, (∃ i, i < 3 ∧ chunkStart 10 3 i ≤ b ∧ b ≤ chunkEnd 10 3 i)
          ↔ (0 ≤ b ∧ b < (10 : Int)))) :=
  chunk_ranges_partition 10 3 (by norm_num) (by norm_num)

theorem combineLoop_all_some (parts : List (Option (List Nat))) (dest : List Nat)
    (h : ∀ p ∈ parts, p ≠ none) :
    combineLoop parts dest
      = (true, dest ++ (parts.filterMap id).flatten, parts.map (fun _ => none)) := by
  induction parts generalizing dest with
  | nil => simp [combineLoop]
  | cons p rest ih =>
      cases p with
      | none => exact absurd rfl (h none (by simp))
      | some c =>
          simp only [combineLoop, ih (dest ++ c) (fun q hq => h q (List.mem_cons_of_mem _ hq)),
            List.filterMap_cons, id, List.flatten_cons, List.map_cons, List.append_assoc]

theorem combineLoop_missing (ps1 ps2 : List (Option (List Nat))) (dest : List Nat)
    (h : ∀ p ∈ ps1, p ≠ none) :
    combineLoop (ps1 ++ none :: ps2) dest
      = (false, dest ++ (ps1.filterMap id).flatten, ps1.map (fun _ => none) ++ none :: ps2) := by
  induction ps1 generalizing dest with
  | nil => simp [combineLoop]
  | cons p rest ih =>
      cases p with
      | none => exact absurd rfl (h none (by simp))
      | some c =>
          simp only [List.cons_append, combineLoop, List.append_eq,
            ih (dest ++ c) (fun q hq => h q (List.mem_cons_of_mem _ hq)),
            List.filterMap_cons, id, List.flatten_cons, List.map_cons, List.append_assoc,
            List.cons_append]

/-- C3 (amended): when a chunk's part file is missing at reassembly time,
`download_file_with_multiple_connections` returns failure — but a
destination file IS produced: line 198 opens the destination with `'wb'`
before any part file is checked, so after the abort the destination exists
on disk containing the concatenation of the part files that preceded the
first missing one.  (In the same run the orchestrator skips processing on
the `False` return, but the partial file is left in place.) -/
theorem download_missing_chunk_partial_dest :
    ∀ (ps1 ps2 : List (Option (List Nat))), (∀ p ∈ ps1, p ≠ none) →
      (combineChunks (ps1 ++ none :: ps2)).1 = false ∧
      downloadDestFile (ps1 ++ none :: ps2) = some ((ps1.filterMap id).flatten) := by
  intro ps1 ps2 h
  have hc := combineLoop_missing ps1 ps2 [] h
  constructor
  · simp [combineChunks, hc]
  · simp [downloadDestFile, combineChunks, hc]

/-- Witness for C3 with one present part followed by one missing part. -/
theorem download_missing_chunk_partial_dest_witness :
    (combineChunks ([some [7]] ++ none :: [])).1 = false ∧
    downloadDestFile ([some [7]] ++ none :: [])
      = some ((([some [7]] : List (Option (List Nat))).filterMap id).flatten) :=
  download_missing_chunk_partial_dest [some [7]] [] (by decide)

/-- Counterexample to C3 as stated: with part 0 present (bytes `[7]`) and
part 1 missing, reassembly fails but a destination file is produced — it
exists and holds the partial content `[7]`, contradicting the claim that no
destination file is produced on failure. -/
theorem download_missing_chunk_dest_exists :
    (combineChunks [some [7], none]).1 = false ∧
    downloadDestFile [some [7], none] ≠ none ∧
    downloadDestFile [some [7], none] = some [7] := by
  exact ⟨by decide, by decide, by decide⟩

/-- C8 (amended): on the success path every temporary part file is removed
by the time Download returns; on the missing-part failure path only the
part files before the first missing index are removed — the loop returns
at the missing index, leaving every later part file (and the rest of the
disk state) untouched. -/
theorem chunk_part_cleanup :
    ∀ (parts ps1 ps2 : List (Option (List Nat))),
      ((∀ p ∈ parts, p ≠ none) →
        (combineChunks parts).1 = true ∧
        (combineChunks parts).2.2 = parts.map (fun _ => none)) ∧
      ((∀ p ∈ ps1, p ≠ none) →
        (combineChunks (ps1 ++ none :: ps2)).2.2
          = ps1.map (fun _ => none) ++ none :: ps2) := by
  intro parts ps1 ps2
  constructor
  · intro h
    have hc := combineLoop_all_some parts [] h
    constructor
    · simp [combineChunks, hc]
    · simp [combineChunks, hc]
  · intro h
    have hc := combineLoop_missing ps1 ps2 [] h
    simp [combineChunks, hc]

/-- Witness for C8: a two-part success run removes both part files, and a
failure run with the second part missing leaves the disk as computed. -/
theorem chunk_part_cleanup_witness :
    ((∀ p ∈ ([some [1], some [2]] : List (Option (List Nat))), p ≠ none) →
      (combineChunks [some [1], some [2]]).1 = true ∧
      (combineChunks [some [1], some [2]]).2.2
        = ([some [1], some [2]] : List (Option (List Nat))).map (fun _ => none)) ∧
    ((∀ p ∈ ([some [1]] : List (Option (List Nat))), p ≠ none) →
      (combineChunks ([some [1]] ++ none :: [some [2]])).2.2
        = ([some [1]] : List (Option (List Nat))).map (fun _ => none) ++ none :: [some [2]]) :=
  chunk_part_cleanup [some [1], some [2]] [some [1]] [some [2]]

/-- Counterexample to C8 as stated: with part 0 missing and part 1 present,
the reassembly loop returns `False` immediately at index 0 and the
downloaded part file `part1` is still on disk when Download returns. -/
theorem chunk_parts_left_on_failure :
    (combineChunks [none, some [7]]).1 = false ∧
    (combineChunks [none, some [7]]).2.2 = [none, some [7]] ∧
    ¬ (∀ p ∈ (combineChunks [none, some [7]]).2.2, p = none) := by
  exact ⟨by decide, by decide, by decide⟩

/-- C10: `download_chunk` swallows a mid-stream failure (its result carries
no error signal, only the part file's disk state) and can leave a truncated
part file; reassembly treats the mere existence of every part file as
success, so Download can return `True` with a destination whose bytes
differ from the remote resource.  Concretely: remote chunks `[1,2]` and
`[3,4]`, with chunk 1's fetch raising after one byte, yield part files
`[1,2]` and `[3]`, a `True` return, and destination `[1,2,3]` ≠
`[1,2,3,4]`. -/
theorem chunk_error_swallowed_corrupt_success :
    (∀ parts : List (Option (List Nat)), (∀ p ∈ parts, p ≠ none) →
        (combineChunks parts).1 = true) ∧
    download_chunk [3, 4] (ChunkFetchOutcome.midStream 1) = some [3] ∧
    (combineChunks (downloadParts [[1, 2], [3, 4]]
        [ChunkFetchOutcome.ok, ChunkFetchOutcome.midStream 1])).1 = true ∧
    (combineChunks (downloadParts [[1, 2], [3, 4]]
        [ChunkFetchOutcome.ok, ChunkFetchOutcome.midStream 1])).2.1
      ≠ ([[1, 2], [3, 4]] : List (List Nat)).flatten := by
  refine ⟨?_, by decide, by decide, by decide⟩
  intro parts h
  simp [combineChunks, combineLoop_all_some parts [] h]

/-- Witness for C10: the existence-only success check at a concrete
all-present part list. -/
theorem chunk_error_swallowed_corrupt_success_witness :
    (combineChunks [some [9]]).1 = true :=
  chunk_error_swallowed_corrupt_success.1 [some [9]] (by decide)

/-- C7 (amended): `DumpDataDict` writes the persisted file in place — the
truncating open followed by the serialized write; on completion the file
holds exactly the full serialized mapping, but there is no temporary path
and rename, and a concurrent reader can observe the intermediate truncated
(empty) file state. -/
theorem save_truncate_then_write :
    ∀ (old new : List Nat),
      (observableStates old (dumpDataDictOps new)).getLast? = some new ∧
      [] ∈ observableStates old (dumpDataDictOps new) ∧
      observableStates old (dumpDataDictOps new) = [old, [], new] := by
  intro old new
  refine ⟨?_, ?_, ?_⟩ <;>
    simp [observableStates, dumpDataDictOps, applySaveOp, List.scanl]

/-- Counterexample to C7 as stated: saving new content `[2]` over old
content `[1]`, the reader-observable states include the truncated empty
file, which is neither the old snapshot nor the new one — a reader can
observe a half-written state. -/
theorem save_observable_truncation :
    ¬ (∀ s ∈ observableStates [1] (dumpDataDictOps [2]), s = [1] ∨ s = [2]) := by
  decide

theorem mem_insertName (s : List String) (n x : String) :
    x ∈ insertName s n ↔ x ∈ s ∨ x = n := by
  unfold insertName
  split_ifs with h
  · constructor
    · exact Or.inl
    · rintro (hx | rfl)
      · exact hx
      · exact h
  · simp [List.mem_append]

theorem insertName_not_mem (s : List String) (n : String) (h : n ∉ s) :
    insertName s n = s ++ [n] := by
  unfold insertName
  exact if_neg h

theorem removeName_not_mem (s : List String) (n : String) : n ∉ removeName s n := by
  simp [removeName]

theorem mem_removeName (s : List String) (n x : String) :
    x ∈ removeName s n ↔ x ∈ s ∧ x ≠ n := by
  simp [removeName]

theorem removeName_eq_self (s : List String) (n : String) (h : n ∉ s) :
    removeName s n = s := by
  apply List.filter_eq_self.mpr
  intro a ha
  have hne : a ≠ n := fun e => h (e ▸ ha)
  simp [hne]

theorem removeName_append (s t : List String) (n : String) :
    removeName (s ++ t) n = removeName s n ++ removeName t n :=
  List.filter_append _ _

theorem foldl_removeName_append (names s t : List String) :
    List.foldl removeName (s ++ t) names
      = List.foldl removeName s names ++ List.foldl removeName t names := by
  induction names generalizing s t with
  | nil => rfl
  | cons n ns ih => simp only [List.foldl_cons, removeName_append, ih]

theorem mem_foldl_removeName (names s : List String) (x : String) :
    x ∈ List.foldl removeName s names ↔ x ∈ s ∧ x ∉ names := by
  induction names generalizing s with
  | nil => simp
  | cons n ns ih =>
      simp only [List.foldl_cons, ih, mem_removeName, List.mem_cons]
      tauto

theorem foldl_removeName_eq_self (names s : List String) (h : ∀ n ∈ names, n ∉ s) :
    List.foldl removeName s names = s := by
  induction names generalizing s with
  | nil => rfl
  | cons n ns ih =>
      simp only [List.foldl_cons]
      rw [removeName_eq_self s n (h n (by simp))]
      exact ih s (fun k hk => h k (by simp [hk]))

theorem foldl_removeName_nil_of_subset (names t : List String) (h : ∀ x ∈ t, x ∈ names) :
    List.foldl removeName t names = [] := by
  apply List.eq_nil_iff_forall_not_mem.mpr
  intro x hx
  rw [mem_foldl_removeName] at hx
  exact hx.2 (h x hx.1)

theorem foldl_insertName_exists (names s : List String) :
    ∃ t, List.foldl insertName s names = s ++ t ∧ ∀ x ∈ t, x ∈ names := by
  induction names generalizing s with
  | nil => exact ⟨[], by simp, by simp⟩
  | cons n ns ih =>
      by_cases h : n ∈ s
      · have hins : insertName s n = s := by
          unfold insertName
          exact if_pos h
        obtain ⟨t, ht, hsub⟩ := ih s
        refine ⟨t, ?_, fun x hx => List.mem_cons_of_mem _ (hsub x hx)⟩
        rw [List.foldl_cons, hins, ht]
      · have hins : insertName s n = s ++ [n] := insertName_not_mem s n h
        obtain ⟨t, ht, hsub⟩ := ih (s ++ [n])
        refine ⟨n :: t, ?_, ?_⟩
        · rw [List.foldl_cons, hins, ht, List.append_assoc]
          rfl
        · intro x hx
          rcases List.mem_cons.mp hx with rfl | hx2
          · exact List.mem_cons_self _ _
          · exact List.mem_cons_of_mem _ (hsub x hx2)

theorem cleanupMember_not_mem (s : List String) (m : Member) :
    m.logjezPath ∉ cleanupMember s m ∧ ∀ n ∈ m.getNames, n ∉ cleanupMember s m := by
  constructor
  · intro hx
    rw [cleanupMember, mem_foldl_removeName] at hx
    exact removeName_not_mem s m.logjezPath hx.1
  · intro n hn hx
    rw [cleanupMember, mem_foldl_removeName] at hx
    exact hx.2 hn

theorem cleanup_after_member (scratch : List String) (m : Member)
    (hsub : m.written ⊆ m.getNames)
    (hlp : m.logjezPath ∉ scratch)
    (hgn : ∀ n ∈ m.getNames, n ∉ scratch) :
    cleanupMember (List.foldl insertName (insertName scratch m.logjezPath) m.written) m
      = scratch := by
  obtain ⟨t, ht, htsub⟩ := foldl_insertName_exists m.written (insertName scratch m.logjezPath)
  rw [cleanupMember, ht, insertName_not_mem scratch m.logjezPath hlp, removeName_append,
    removeName_append, removeName_eq_self scratch m.logjezPath hlp]
  have h1 : removeName [m.logjezPath] m.logjezPath = [] := by simp [removeName]
  rw [h1, List.append_nil, foldl_removeName_append,
    foldl_removeName_eq_self m.getNames scratch hgn,
    foldl_removeName_nil_of_subset m.getNames (removeName t m.logjezPath)
      (fun x hx => hsub (htsub x ((mem_removeName t m.logjezPath x).mp hx).1)),
    List.append_nil]

/-- C6 (amended): for every processed member, every file written during
both extraction levels (the inner-archive file and, when the inner
container opened, all entries `getnames()` reported) is deleted before the
loop moves on; and the scratch directory returns to its exact pre-member
state provided no pre-existing scratch file shares a name with the member's
inner-archive path or one of its entry names — the `finally` block removes
any file bearing those names, including files that predate the member. -/
theorem member_scratch_cleanup :
    ∀ (uf : String) (turno : Nat) (data : Store) (scratch : List String) (m : Member),
      m.written ⊆ m.getNames →
      ((strEndsWith m.name "logjez" = true →
          m.logjezPath ∉ ((memberStep uf turno (data, scratch) m).1).2 ∧
          (m.innerOk = true →
            ∀ n ∈ m.getNames, n ∉ ((memberStep uf turno (data, scratch) m).1).2)) ∧
        (m.logjezPath ∉ scratch → (∀ n ∈ m.getNames, n ∉ scratch) →
          ((memberStep uf turno (data, scratch) m).1).2 = scratch)) := by
  intro uf turno data scratch m hsub
  by_cases hname : strEndsWith m.name "logjez" = true
  · by_cases hio : m.innerOk = true
    · have hres : ((memberStep uf turno (data, scratch) m).1).2
          = cleanupMember (List.foldl insertName (insertName scratch m.logjezPath) m.written)
              m := by
        by_cases hex : m.extractOk = true
        · cases hfm : m.fnMatch with
          | none => simp [memberStep, hname, hio, hex, hfm]
          | some v =>
              obtain ⟨cd, nz, ns⟩ := v
              simp [memberStep, hname, hio, hex, hfm]
        · simp [memberStep, hname, hio, hex]
      refine ⟨fun _ => ⟨?_, fun _ => ?_⟩, fun hlp hgn => ?_⟩
      · rw [hres]
        exact (cleanupMember_not_mem _ m).1
      · rw [hres]
        exact (cleanupMember_not_mem _ m).2
      · rw [hres]
        exact cleanup_after_member scratch m hsub hlp hgn
    · have hres : ((memberStep uf turno (data, scratch) m).1).2
          = removeName (insertName scratch m.logjezPath) m.logjezPath := by
        simp [memberStep, hname, hio]
      refine ⟨fun _ => ⟨?_, fun hio2 => absurd hio2 hio⟩, fun hlp hgn => ?_⟩
      · rw [hres]
        exact removeName_not_mem _ _
      · rw [hres, insertName_not_mem scratch m.logjezPath hlp, removeName_append,
          removeName_eq_self scratch _ hlp]
        simp [removeName]
  · have hres : ((memberStep uf turno (data, scratch) m).1).2 = scratch := by
      simp [memberStep, hname]
    exact ⟨fun hn => absurd hn hname, fun _ _ => hres⟩

/-- Witness for C6: a member extracting `logd.dat` into a scratch directory
that holds only the unrelated outer archive name is fully cleaned up and
the scratch directory is restored. -/
theorem member_scratch_cleanup_witness :
    "x.logjez" ∉ ((memberStep "AC" 1 (emptyStore, ["bu.zip"])
        { name := "x.logjez", logjezPath := "x.logjez", innerOk := true,
          getNames := ["logd.dat"], written := ["logd.dat"], extractOk := true,
          fnMatch := some (1, 1, 1), parsed := some "UE2020" }).1).2 ∧
    ((memberStep "AC" 1 (emptyStore, ["bu.zip"])
        { name := "x.logjez", logjezPath := "x.logjez", innerOk := true,
          getNames := ["logd.dat"], written := ["logd.dat"], extractOk := true,
          fnMatch := some (1, 1, 1), parsed := some "UE2020" }).1).2 = ["bu.zip"] := by
  have h := member_scratch_cleanup "AC" 1 emptyStore ["bu.zip"]
    { name := "x.logjez", logjezPath := "x.logjez", innerOk := true,
      getNames := ["logd.dat"], written := ["logd.dat"], extractOk := true,
      fnMatch := some (1, 1, 1), parsed := some "UE2020" } (List.Subset.refl _)
  exact ⟨(h.1 (by decide)).1, h.2 (by decide) (by decide)⟩

/-- Counterexample to C6 as stated: the scratch directory holds a stale
file named `logd.dat` before the member is processed; the member's inner
archive also contains an entry named `logd.dat`, so the member's `finally`
cleanup deletes it and the scratch directory ends empty — not in its
pre-member state — even though the member completed and the loop continues. -/
theorem member_cleanup_collision_cex :
    (memberStep "AC" 1 (emptyStore, ["logd.dat"])
        { name := "x.logjez", logjezPath := "x.logjez", innerOk := true,
          getNames := ["logd.dat"], written := ["logd.dat"], extractOk := true,
          fnMatch := none, parsed := none }).2 = true ∧
    ((memberStep "AC" 1 (emptyStore, ["logd.dat"])
        { name := "x.logjez", logjezPath := "x.logjez", innerOk := true,
          getNames := ["logd.dat"], written := ["logd.dat"], extractOk := true,
          fnMatch := none, parsed := none }).1).2 = ([] : List String) := by
  exact ⟨by decide, by decide⟩

/-- C5 (amended): a failure to open a member's second-level (inner)
container is NOT a per-member failure: the exception escapes the member
loop (after the member's own `finally` cleanup), is swallowed by the
archive-level handler, and the remaining members of the same outer archive
are never processed — the store is left exactly as it was before the
failing member. -/
theorem inner_archive_failure_aborts :
    ∀ (uf : String) (turno : Nat) (data : Store) (scratch : List String)
      (m : Member) (rest : List Member),
      strEndsWith m.name "logjez" = true → m.innerOk = false →
      (memberStep uf turno (data, scratch) m).2 = false ∧
      processZip uf turno data scratch (m :: rest)
        = (data, removeName (insertName scratch m.logjezPath) m.logjezPath) := by
  intro uf turno data scratch m rest hname hio
  have hio2 : ¬ (m.innerOk = true) := by simp [hio]
  have hstep : memberStep uf turno (data, scratch) m
      = ((data, removeName (insertName scratch m.logjezPath) m.logjezPath), false) := by
    simp [memberStep, hname, hio2]
  constructor
  · rw [hstep]
  · simp [processZip, hstep]

/-- Witness for C5 at a concrete corrupt-inner member followed by an empty
tail. -/
theorem inner_archive_failure_aborts_witness :
    (memberStep "AC" 1 (emptyStore, [])
        { name := "a.logjez", logjezPath := "a.logjez", innerOk := false, getNames := [],
          written := [], extractOk := true, fnMatch := none, parsed := none }).2 = false ∧
    processZip "AC" 1 emptyStore []
        [{ name := "a.logjez", logjezPath := "a.logjez", innerOk := false, getNames := [],
           written := [], extractOk := true, fnMatch := none, parsed := none }]
      = (emptyStore, removeName (insertName [] "a.logjez") "a.logjez") :=
  inner_archive_failure_aborts "AC" 1 emptyStore []
    { name := "a.logjez", logjezPath := "a.logjez", innerOk := false, getNames := [],
      written := [], extractOk := true, fnMatch := none, parsed := none } []
    (by decide) rfl

/-- Counterexample to C5 as stated: a first member whose inner container
fails to open prevents the valid second member from being processed — the
section `AC_2_2_2` is absent from the final store, while running the valid
member alone stores its round-1 model. -/
theorem inner_archive_failure_abort_cex :
    (((processZip "AC" 1 emptyStore []
        [{ name := "a.logjez", logjezPath := "a.logjez", innerOk := false, getNames := [],
           written := [], extractOk := true, fnMatch := some (1, 1, 1),
           parsed := some "UE2020" },
         { name := "b.logjez", logjezPath := "b.logjez", innerOk := true,
           getNames := ["logd.dat"], written := ["logd.dat"], extractOk := true,
           fnMatch := some (2, 2, 2), parsed := some "UE2020" }]).1) "AC_2_2_2").map
      (fun r => r.modelo_urna 1) = none ∧
    (((processZip "AC" 1 emptyStore []
        [{ name := "b.logjez", logjezPath := "b.logjez", innerOk := true,
           getNames := ["logd.dat"], written := ["logd.dat"], extractOk := true,
           fnMatch := some (2, 2, 2), parsed := some "UE2020" }]).1) "AC_2_2_2").map
      (fun r => r.modelo_urna 1) = some (some "UE2020") := by
  exact ⟨by decide, by decide⟩
